import Mathlib

/-!
Verification of the capsule-routing core of the samantha chat gateway.

The repository contains two historical revisions of the backend and frontend
managers.  The later revision routes a single `capsule.Capsule` value over one
shared channel (`Backend.Start` at backend.go:377, `Frontend.Start` at
frontend.go:356, the telegram binding, the watson binding); the earlier
revision serialises `CapsuleIn`/`CapsuleOut` values over byte channels and
contains `Backend.message` and `capsuleIsValid` (backend.go:237 and
backend.go:252).  Both revisions are embedded below: the later one at top
level, the earlier one in namespace `V1`.

Channels and goroutines are modelled by making each loop body a pure step
function that returns the list of sends it performs; the concrete bindings
(telebot, watson SDK) are modelled by the values they hand to the embedded
code (an incoming `tb.Message`, a provider `Message` function).
-/

/-- Errors of the juju/errors package as used by the repository: each
constructor keeps the formatted argument string of the corresponding
`errors.XXXf` call; `GoError.message` renders `err.Error()`. -/
inductive GoError where
  | notFoundf (msg : String)
  | notImplementedf (msg : String)
  | notValidf (msg : String)
  | notProvisionedf (msg : String)
  | notAssignedf (msg : String)
  | annotatedErr (msg : String) (err : GoError)
  | other (msg : String)
deriving DecidableEq, Repr

/-- `err.Error()` for the embedded juju error values: `errors.NotFoundf(m)`
renders as `m ++ " not found"`, `errors.Annotate(err, m)` as
`m ++ ": " ++ err.Error()`, and so on. -/
def GoError.message : GoError → String
  | .notFoundf m => m ++ " not found"
  | .notImplementedf m => m ++ " not implemented"
  | .notValidf m => m ++ " not valid"
  | .notProvisionedf m => m ++ " not provisioned"
  | .notAssignedf m => m ++ " not assigned"
  | .annotatedErr m e => m ++ ": " ++ e.message
  | .other m => m

/-- `errors.IsNotFound` of juju/errors: true exactly for values built by
`errors.NotFoundf`. -/
def GoError.isNotFound : GoError → Bool
  | .notFoundf _ => true
  | _ => false

/-- A google/uuid UUID: 16 bytes. -/
abbrev UUID := List Nat

/-- `uuid.Nil`: the all-zero UUID. -/
def uuidNil : UUID := List.replicate 16 0

/-- `uuid.Version()`: the high nibble of byte 6 (`uuid[6] >> 4`). -/
def uuidVersion (u : UUID) : Nat := (u.getD 6 0) / 16

/-- `Version.String()` of google/uuid: `"VERSION_d"` for versions up to 15,
`"BAD_VERSION_d"` above. -/
def versionString (v : Nat) : String :=
  if 15 < v then "BAD_VERSION_" ++ toString v else "VERSION_" ++ toString v

/-- One lowercase hex digit. -/
def hexDigitChar (n : Nat) : Char :=
  if n < 10 then Char.ofNat (48 + n) else Char.ofNat (87 + n)

/-- A byte as two lowercase hex digits. -/
def byteToHex (b : Nat) : String :=
  String.mk [hexDigitChar (b / 16 % 16), hexDigitChar (b % 16)]

/-- `UUID.String()` of google/uuid: lowercase hex in 8-4-4-4-12 groups. -/
def uuidToString (u : UUID) : String :=
  String.join ((u.take 4).map byteToHex) ++ "-" ++
  String.join (((u.drop 4).take 2).map byteToHex) ++ "-" ++
  String.join (((u.drop 6).take 2).map byteToHex) ++ "-" ++
  String.join (((u.drop 8).take 2).map byteToHex) ++ "-" ++
  String.join ((u.drop 10).map byteToHex)

/-- `provider.Output` of the backend provider contract. -/
structure Output where
  ResponseType : String
  Text : String
deriving DecidableEq, Repr

/-- `provider.Intent` of the backend provider contract.  The `Confidence`
field is a float32 in the source; no arithmetic is ever performed on it, so
it is carried here as its raw bit pattern. -/
structure BIntent where
  Intent : String
  Confidence : Nat
deriving DecidableEq, Repr

/-- `provider.Response` of the backend provider contract. -/
structure Response where
  StatusCode : Int
  Outputs : List Output
  Intents : List BIntent
deriving DecidableEq, Repr

/-- `capsule.Capsule`: the envelope of the later revision. -/
structure Capsule where
  OriginalMessage : UUID
  FrontendProvider : String
  Content : String
  User : String
  Responses : List String
  Error : Option GoError
deriving DecidableEq, Repr

/-- A backend provider is abstracted by its `Message(text) -> (Response, error)`
operation. -/
def BackendProvider := String → Except GoError Response

/-- One iteration of `Backend.Start`'s listening loop (backend.go:392-416,
later revision) on a received capsule.  Returns the list of contents passed
to the provider's `Message` call and the list of capsules sent back on the
shared channel: on provider failure `errorHandler` (backend.go:468) attaches
the error and sends the capsule; on success each response output's text is
appended to the capsule's responses and the capsule is sent. -/
def backendStartStep (prov : BackendProvider) (c : Capsule) :
    List String × List Capsule :=
  match prov c.Content with
  | .error e => ([c.Content], [{ c with Error := some e }])
  | .ok r => ([c.Content], [{ c with Responses := c.Responses ++ r.Outputs.map Output.Text }])

namespace V1

/-- `provider.ContentType` constant `Text` (the type is a string alias). -/
def ctText : String := "Text"

/-- `provider.ContentType` constant `Image`. -/
def ctImage : String := "Image"

/-- `provider.ContentType` constant `Audio`. -/
def ctAudio : String := "Audio"

/-- `backend.CapsuleIn` of the earlier revision.  `Content` is `[]byte` in
the source and is only ever used through `string(capsule.Content)`, so it is
carried as a string. -/
structure CapsuleIn where
  RespondTo : UUID
  ProviderLabel : String
  ContentType : String
  Content : String
  User : String
deriving DecidableEq, Repr

/-- `capsuleIsValid` (backend.go:252-274): returns the error of the first
failing check, or `none` when the capsule is valid. -/
def capsuleIsValid (c : CapsuleIn) : Option GoError :=
  if c.RespondTo = uuidNil ∧ versionString (uuidVersion c.RespondTo) = "VERSION_4" then
    some (.notValidf ("uuid " ++ uuidToString c.RespondTo))
  else if c.Content.length = 0 then
    some (.notProvisionedf ("content (capsule " ++ uuidToString c.RespondTo ++ ")"))
  else if c.ContentType.length = 0 then
    some (.notAssignedf ("input type " ++ c.ContentType ++ " (capsule " ++ uuidToString c.RespondTo ++ ")"))
  else if c.ProviderLabel.length = 0 then
    some (.notAssignedf ("provider (capsule " ++ uuidToString c.RespondTo ++ ")"))
  else if c.User.length = 0 then
    some (.notAssignedf ("user (capsule " ++ uuidToString c.RespondTo ++ ")"))
  else
    none

/-- `Backend.message` (backend.go:237-248): dispatches on the content type,
calling the provider only for `Text` and short-circuiting otherwise.  The
first component records the contents the provider's `Message` was invoked
with. -/
def backendMessage (prov : BackendProvider) (c : CapsuleIn) :
    List String × Except GoError Response :=
  if c.ContentType = ctText then
    ([c.Content], prov c.Content)
  else if c.ContentType = ctImage then
    ([], .error (.notImplementedf (c.ContentType ++ " message handling")))
  else if c.ContentType = ctAudio then
    ([], .error (.notImplementedf (c.ContentType ++ " message handling")))
  else
    ([], .error (.notFoundf ("input type " ++ c.ContentType)))

/-- One iteration of the earlier revision's `Backend.Start` loop
(backend.go:142-168) on an unmarshalled capsule: after `capsuleIsValid`
passes, `b.activatedProvider.Message(string(capsule.Content))` is called
directly — `Backend.message` is not consulted.  Returns the provider
invocations and the resulting error, if any. -/
def backendStartStepV1 (prov : BackendProvider) (c : CapsuleIn) :
    List String × Option GoError :=
  match capsuleIsValid c with
  | some e => ([], some (.annotatedErr "unmarshaling capsule" e))
  | none =>
    match prov c.Content with
    | .error e => ([c.Content], some e)
    | .ok _ => ([c.Content], none)

end V1

/-- `tb.User` of the telebot library, restricted to the fields the repository
reads (`Sender.ID` and `Sender.Username`). -/
structure TbUser where
  ID : Int
  Username : String
deriving DecidableEq, Repr

/-- `provider.User` (frontend provider contract): an authorized-user entry. -/
structure PUser where
  ID : Int
  Name : String
deriving DecidableEq, Repr

/-- `tb.Message` of the telebot library, restricted to the fields the
repository reads. -/
structure TbMessage where
  Sender : TbUser
  Text : String
deriving DecidableEq, Repr

/-- `telegram.message`: one pending user message (frontend.go:536-548). -/
structure TMessage where
  uuid : UUID
  contentType : String
  content : String
  user : TbUser
deriving DecidableEq, Repr

/-- The state of a `telegram.Telegram` binding that the embedded operations
read and write: the authorized-user list and the pending-message slice. -/
structure TelegramState where
  AuthorizedUsers : List PUser
  pendingMessages : List TMessage
deriving DecidableEq, Repr

/-- `provider.CapsuleProvider` of the later revision (the value a frontend
binding sends to the frontend manager). -/
structure CapsuleProvider where
  OriginalMessage : UUID
  ProviderLabel : String
  Content : String
  User : String
deriving DecidableEq, Repr

/-- The scan-and-remove loop of `findPendingMessage` (frontend.go:727-735):
returns the first message whose uuid matches (removing it from the list), or
the `NotFoundf` error with the list unchanged. -/
def findAux (u : UUID) : List TMessage → Except GoError TMessage × List TMessage
  | [] => (.error (.notFoundf ("message (uuid: " ++ uuidToString u ++ ")")), [])
  | m :: rest =>
    if m.uuid = u then
      (.ok m, rest)
    else
      let r := findAux u rest
      (r.1, m :: r.2)

/-- `Telegram.findPendingMessage` (frontend.go:722-736): on an empty pending
list it returns the `NotProvisionedf("pending messages")` error; otherwise it
scans for the matching entry, removes it and returns it, or returns the
`NotFoundf` error.  The second component is the pending list after the call. -/
def findPendingMessage (msgs : List TMessage) (u : UUID) :
    Except GoError TMessage × List TMessage :=
  if msgs.isEmpty then
    (.error (.notProvisionedf "pending messages"), msgs)
  else
    findAux u msgs

/-- `provider.SystemLogStatus` constant `ErrorStatus`. -/
def errorStatus : String := "Error"

/-- `provider.SystemLog(content, status)`. -/
def systemLog (content : String) (status : String) : String :=
  "[SYSTEM]" ++ status ++ ": " ++ content

/-- Result of a telegram binding operation: the updated binding state, the
`Bot.Send` calls performed (recipient and text, in order), and the returned
error. -/
structure TgResult where
  state : TelegramState
  sends : List (TbUser × String)
  err : Option GoError
deriving Repr

/-- `Telegram.sendTextMessage` (frontend.go:739-750): looks up and removes the
pending message, then sends each response string to its user, in order. -/
def sendTextMessage (t : TelegramState) (respondTo : UUID) (responses : List String) :
    TgResult :=
  match findPendingMessage t.pendingMessages respondTo with
  | (.error e, l) => ⟨{ t with pendingMessages := l }, [], some e⟩
  | (.ok pm, l) =>
    ⟨{ t with pendingMessages := l }, responses.map (fun r => (pm.user, r)), none⟩

/-- `Telegram.sendErrorMessage` (frontend.go:754-763): looks up and removes
the pending message, then sends one system-log message built from the error
text. -/
def sendErrorMessage (t : TelegramState) (respondTo : UUID) (e : GoError) :
    TgResult :=
  match findPendingMessage t.pendingMessages respondTo with
  | (.error e2, l) => ⟨{ t with pendingMessages := l }, [], some e2⟩
  | (.ok pm, l) =>
    ⟨{ t with pendingMessages := l }, [(pm.user, systemLog e.message errorStatus)], none⟩

/-- `Telegram.Message` (frontend.go:603-609): when the capsule carries an
error with a non-empty message, respond with the error message; otherwise
send the capsule's responses. -/
def telegramMessage (t : TelegramState) (c : Capsule) : TgResult :=
  match c.Error with
  | some e =>
    if 0 < e.message.length then
      sendErrorMessage t c.OriginalMessage e
    else
      sendTextMessage t c.OriginalMessage c.Responses
  | none => sendTextMessage t c.OriginalMessage c.Responses

/-- The authorized-user scan of `textMessageHandler` (frontend.go:628-634):
the sender must match some configured user on both username and ID. -/
def userIsValid (authorized : List PUser) (sender : TbUser) : Bool :=
  authorized.any (fun u => u.Name == sender.Username && u.ID == sender.ID)

/-- `messageToCapsuleProvider` (frontend.go:711-718). -/
def messageToCapsuleProvider (m : TMessage) : CapsuleProvider :=
  { OriginalMessage := m.uuid
    ProviderLabel := "telegram"
    Content := m.content
    User := m.user.Username }

/-- `Telegram.processUserMessage` (frontend.go:677-708).  The fresh uuid of
`uuid.NewRandom()` is passed in as `freshUuid`.  Returns the updated state,
the capsules sent on the `userInput` channel, and the returned error. -/
def processUserMessage (t : TelegramState) (userMessage : TbMessage)
    (freshUuid : UUID) (contentType : String) :
    TelegramState × List CapsuleProvider × Option GoError :=
  if contentType = V1.ctText then
    let m : TMessage :=
      { uuid := freshUuid, contentType := V1.ctText
        content := userMessage.Text, user := userMessage.Sender }
    ({ t with pendingMessages := t.pendingMessages ++ [m] },
      [messageToCapsuleProvider m], none)
  else if contentType = V1.ctAudio then
    (t, [], some (.notImplementedf (contentType ++ " message handling")))
  else if contentType = V1.ctImage then
    (t, [], some (.notImplementedf (contentType ++ " message handling")))
  else
    (t, [], some (.notFoundf ("input type " ++ contentType)))

/-- Result of the text-message handler: the updated binding state, the
capsules sent to the frontend manager, and the `Bot.Send` calls performed. -/
structure THandlerResult where
  state : TelegramState
  userInputs : List CapsuleProvider
  botSends : List (TbUser × String)
deriving Repr

/-- `Telegram.textMessageHandler`'s closure (frontend.go:623-658): an
unauthorized sender is dropped after logging; an authorized sender's message
goes through `processUserMessage`, and a processing error is echoed to the
sender as a system-log message. -/
def textMessageHandler (t : TelegramState) (message : TbMessage)
    (freshUuid : UUID) : THandlerResult :=
  if userIsValid t.AuthorizedUsers message.Sender then
    match processUserMessage t message freshUuid V1.ctText with
    | (t2, sends, none) => ⟨t2, sends, []⟩
    | (t2, sends, some e) => ⟨t2, sends, [(message.Sender, systemLog e.message errorStatus)]⟩
  else
    ⟨t, [], []⟩

/-- A frontend provider as the frontend manager sees it in the later
revision: its label and its `Message(capsule) -> error` operation. -/
structure FProvider where
  label : String
  messageFn : Capsule → Option GoError

/-- `Frontend.message` (frontend.go:486-494, later revision): deliver the
capsule through the first activated provider whose label equals the capsule's
`FrontendProvider`, or return the `NotFoundf` error.  The first component
records the `Message` deliveries performed (provider label and capsule). -/
def frontendMessage : List FProvider → Capsule → List (String × Capsule) × Option GoError
  | [], c => ([], some (.notFoundf ("frontend provider " ++ c.FrontendProvider)))
  | p :: rest, c =>
    if c.FrontendProvider = p.label then
      ([(p.label, c)], p.messageFn c)
    else
      frontendMessage rest c

/-- One iteration of `Frontend.Start`'s dispatch loop on the shared capsule
channel (frontend.go:386-395): `none` models a closed channel, which is the
only way the loop stops; a received capsule is dispatched by `f.message` and
any error is only logged, the loop continuing.  Returns whether the loop
continues and the deliveries performed. -/
def frontendStartStep (ps : List FProvider) (ev : Option Capsule) :
    Bool × List (String × Capsule) :=
  match ev with
  | none => (false, [])
  | some c => (true, (frontendMessage ps c).1)

/-- `frontend.ProviderConfig` (one entry of the configuration list). -/
structure ProviderConfig where
  Label : String
  IsActivated : Bool
  Token : String
  AuthorizedUsers : List PUser

/-- `provider.Config` as built by `loadProvider` for a frontend provider
(the `UserInput` channel handle carries no data and is omitted). -/
structure PConfig where
  Token : String
  AuthorizedUsers : List PUser

/-- The `provider.Config` built for `pc` inside `loadProvider`
(frontend.go:452-456). -/
def toPConfig (pc : ProviderConfig) : PConfig :=
  { Token := pc.Token, AuthorizedUsers := pc.AuthorizedUsers }

/-- `loadProvider` (frontend.go:434-470, later revision), parametrised by the
`providerCollection` registry (a map from label to a prototype whose
`Initialize` is the given function): every configured label is resolved
against the registry (a miss is the `NotFoundf` error), activated entries are
initialized (a failure is annotated and returned), and the initialized
providers are collected in order; the first error aborts the whole load. -/
def loadProvider (coll : String → Option (PConfig → Except GoError FProvider)) :
    List ProviderConfig → Except GoError (List FProvider)
  | [] => .ok []
  | pc :: rest =>
    match coll pc.Label with
    | none => .error (.notFoundf ("provider called `" ++ pc.Label ++ "`"))
    | some initFn =>
      if pc.IsActivated then
        match initFn (toPConfig pc) with
        | .error e => .error (.annotatedErr ("loading provider " ++ pc.Label) e)
        | .ok p =>
          match loadProvider coll rest with
          | .error e => .error e
          | .ok ps => .ok (p :: ps)
      else
        loadProvider coll rest

/-- A configuration entry passes loading when its label is in the registry
and, if it is activated, its initialization succeeds. -/
def passes (coll : String → Option (PConfig → Except GoError FProvider))
    (pc : ProviderConfig) : Prop :=
  ∃ initFn, coll pc.Label = some initFn ∧
    (pc.IsActivated = true → ∃ p, initFn (toPConfig pc) = .ok p)

/-- `watson.Generic`: one response value of a watson result. -/
structure WGeneric where
  ResponseType : String
  Text : String
deriving DecidableEq, Repr

/-- `watson.Intent`.  `Confidence` is a float32 in the source; no arithmetic
is ever performed on it, so it is carried as its raw bit pattern. -/
structure WIntent where
  Intent : String
  Confidence : Nat
deriving DecidableEq, Repr

/-- `watson.OutputWatson`. -/
structure OutputWatson where
  Generics : List WGeneric
  Intents : List WIntent
deriving DecidableEq, Repr

/-- `watson.ResultWatson`. -/
structure ResultWatson where
  Output : OutputWatson
deriving DecidableEq, Repr

/-- `watson.ResponseWatson`: the parsed form of a watson response (the claim
concerns well-formed responses, so the JSON decoding step is factored out and
`convertResponse` is embedded on the decoded structure). -/
structure ResponseWatson where
  StatusCode : Int
  Result : ResultWatson
deriving DecidableEq, Repr

/-- `strings.Split(s, "\n")` on the character list of `s`: Go's `Split` with
a one-character separator never returns an empty list — splitting the empty
string yields one empty piece. -/
def splitNlChars : List Char → List (List Char)
  | [] => [[]]
  | c :: rest =>
    if c = '\n' then
      [] :: splitNlChars rest
    else
      match splitNlChars rest with
      | [] => [[c]]
      | s :: ss => (c :: s) :: ss

/-- `strings.Split(s, "\n")` as a string operation. -/
def goSplitNl (s : String) : List String :=
  (splitNlChars s.data).map (fun l => { data := l })

/-- `convertResponse` (watson.go:170-205) on a decoded watson response: each
generic's text is split on newlines, each piece becoming one output carrying
the generic's response type; intents are copied through. -/
def convertResponse (w : ResponseWatson) : Response :=
  { StatusCode := w.StatusCode
    Outputs :=
      w.Result.Output.Generics.foldl
        (fun acc g =>
          acc ++ (goSplitNl g.Text).map (fun r => { ResponseType := g.ResponseType, Text := r }))
        []
    Intents :=
      w.Result.Output.Intents.map (fun i => { Intent := i.Intent, Confidence := i.Confidence }) }

/-- In-order concatenation of the per-generic output lists: the reference
shape the flattening loop of `convertResponse` is compared against. -/
def concatOutputs (f : WGeneric → List Output) : List WGeneric → List Output
  | [] => []
  | g :: rest => f g ++ concatOutputs f rest

/-- Whether a `findPendingMessage` result is an error. -/
def resIsError (r : Except GoError TMessage × List TMessage) : Bool :=
  match r.1 with
  | .error _ => true
  | .ok _ => false

/-- Whether a `findPendingMessage` result is specifically a juju
not-found error (`errors.IsNotFound`). -/
def resNotFoundErr (r : Except GoError TMessage × List TMessage) : Bool :=
  match r.1 with
  | .error e => e.isNotFound
  | .ok _ => false

/-! Concrete fixtures used by witnesses and counterexamples. -/

/-- A non-nil UUID. -/
def uuidOne : UUID := 1 :: List.replicate 15 0

/-- A backend provider whose `Message` always succeeds with no outputs. -/
def okProv : BackendProvider := fun _ => .ok { StatusCode := 200, Outputs := [], Intents := [] }

/-- A provider response whose outputs are `["A", "B"]`. -/
def respAB : Response :=
  { StatusCode := 200, Outputs := [⟨"text", "A"⟩, ⟨"text", "B"⟩], Intents := [] }

/-- A backend provider whose `Message` always returns `respAB`. -/
def provAB : BackendProvider := fun _ => .ok respAB

/-- A backend provider whose `Message` always fails. -/
def provFail : BackendProvider := fun _ => .error (.other "watson unavailable")

/-- A valid earlier-revision capsule carrying an image payload. -/
def imgCapsule : V1.CapsuleIn :=
  { RespondTo := uuidOne, ProviderLabel := "telegram", ContentType := "Image"
    Content := "img-bytes", User := "bob" }

/-- A request capsule as the frontend builds it: empty responses, no error. -/
def capHello : Capsule :=
  { OriginalMessage := uuidOne, FrontendProvider := "telegram", Content := "hello"
    User := "bob", Responses := [], Error := none }

/-- A telegram user. -/
def tbBob : TbUser := { ID := 42, Username := "bob" }

/-- A pending message recorded for `uuidOne`. -/
def tmsg0 : TMessage :=
  { uuid := uuidOne, contentType := V1.ctText, content := "hello", user := tbBob }

/-- A pending-message table holding exactly `tmsg0`. -/
def msgs0 : List TMessage := [tmsg0]

/-- A telegram binding state with one authorized user and one pending message. -/
def tgState0 : TelegramState := { AuthorizedUsers := [⟨42, "bob"⟩], pendingMessages := msgs0 }

/-- A reply capsule carrying an error. -/
def capErr : Capsule := { capHello with Error := some (.other "boom") }

/-- A frontend provider labelled `telegram` whose `Message` succeeds. -/
def pTele : FProvider := { label := "telegram", messageFn := fun _ => none }

/-- A frontend provider labelled `messenger`. -/
def pOther : FProvider := { label := "messenger", messageFn := fun _ => none }

/-- A registry holding only the `telegram` provider. -/
def coll0 : String → Option (PConfig → Except GoError FProvider) :=
  fun l => if l = "telegram" then some (fun _ => .ok pTele) else none

/-- A configuration entry whose label is absent from `coll0`. -/
def cfgUnknown : ProviderConfig :=
  { Label := "slack", IsActivated := true, Token := "tok", AuthorizedUsers := [] }

/-- Claim C5: for every inbound `CapsuleIn` the UUID validity condition of
`capsuleIsValid` — `RespondTo = uuid.Nil` and its version string equals
`"VERSION_4"` — is false (the nil UUID has version 0), so `capsuleIsValid`
never returns the `"uuid not valid"` error: that branch is unreachable. -/
theorem capsuleIsValid_uuid_branch_unreachable (c : V1.CapsuleIn) :
    ¬(c.RespondTo = uuidNil ∧ versionString (uuidVersion c.RespondTo) = "VERSION_4") ∧
    ∀ s, V1.capsuleIsValid c ≠ some (.notValidf s) := by
  have hbranch : ¬(c.RespondTo = uuidNil ∧
      versionString (uuidVersion c.RespondTo) = "VERSION_4") := by
    rintro ⟨h1, h2⟩
    rw [h1] at h2
    have h0 : versionString (uuidVersion uuidNil) = "VERSION_0" := by decide
    rw [h0] at h2
    exact absurd h2 (by decide)
  refine ⟨hbranch, ?_⟩
  intro s
  unfold V1.capsuleIsValid
  rw [if_neg hbranch]
  split_ifs <;> simp

/-- Claim C1: the earlier revision's `Backend.message` would short-circuit an
image capsule with a typed `NotImplementedError` without invoking the
provider, but the listening loop of `Backend.Start` never calls it — it
passes every received capsule's content to `activatedProvider.Message`
unconditionally, so a valid image capsule does reach the provider.  This
evaluates both functions at such a capsule, exhibiting the divergence. -/
theorem backendStart_invokes_provider_on_image_capsule :
    V1.capsuleIsValid imgCapsule = none ∧
    (V1.backendStartStepV1 okProv imgCapsule).1 = ["img-bytes"] ∧
    V1.backendMessage okProv imgCapsule =
      ([], .error (.notImplementedf "Image message handling")) :=
  ⟨rfl, rfl, rfl⟩

/-- Claim C2: when the provider's `Message` call succeeds on a request
capsule (whose responses are still empty), the capsule sent back on the
shared channel is exactly one capsule whose `Responses` are the provider's
output texts in provider order — in particular outputs `["A", "B"]` yield
responses `["A", "B"]`. -/
theorem backendStart_success_flattens_outputs (prov : BackendProvider)
    (c : Capsule) (r : Response) (hresp : c.Responses = [])
    (hok : prov c.Content = .ok r) (houts : r.Outputs.map Output.Text = ["A", "B"]) :
    (backendStartStep prov c).2 = [{ c with Responses := ["A", "B"] }] := by
  unfold backendStartStep
  rw [hok]
  simp [hresp, houts]

/-- Witness for C2 at a concrete capsule and provider. -/
theorem backendStart_success_flattens_outputs_witness :
    (backendStartStep provAB capHello).2 = [{ capHello with Responses := ["A", "B"] }] :=
  backendStart_success_flattens_outputs provAB capHello respAB rfl rfl rfl

/-- Claim C3: when the provider's `Message` call fails, `errorHandler`
attaches the error to the capsule and sends it back on the shared channel
exactly once, with the responses left empty: the error is not swallowed and
the capsule is neither dropped nor duplicated. -/
theorem backendStart_failure_returns_capsule_once (prov : BackendProvider)
    (c : Capsule) (e : GoError) (herr : prov c.Content = .error e)
    (hresp : c.Responses = []) :
    (backendStartStep prov c).2 = [{ c with Error := some e }] ∧
    (backendStartStep prov c).2.map Capsule.Responses = [[]] ∧
    (backendStartStep prov c).2.map Capsule.Error = [some e] := by
  unfold backendStartStep
  rw [herr]
  simp [hresp]

/-- Witness for C3 at a concrete capsule and failing provider. -/
theorem backendStart_failure_returns_capsule_once_witness :
    (backendStartStep provFail capHello).2 =
      [{ capHello with Error := some (.other "watson unavailable") }] :=
  (backendStart_failure_returns_capsule_once provFail capHello
    (.other "watson unavailable") rfl rfl).1

/-- When no entry matches, the scan loop returns the not-found error and
leaves the list unchanged. -/
theorem findAux_noMatch (u : UUID) (l : List TMessage)
    (h : ∀ m ∈ l, m.uuid ≠ u) :
    findAux u l = (.error (.notFoundf ("message (uuid: " ++ uuidToString u ++ ")")), l) := by
  induction l with
  | nil => rfl
  | cons m rest ih =>
    have hm : ¬(m.uuid = u) := h m (by simp)
    have hrest : ∀ m2 ∈ rest, m2.uuid ≠ u := fun m2 hm2 => h m2 (by simp [hm2])
    simp only [findAux, if_neg hm, ih hrest]

/-- When no entry matches, `findPendingMessage` errors (not-provisioned on an
empty table, not-found otherwise). -/
theorem findPendingMessage_noMatch (msgs : List TMessage) (u : UUID)
    (h : ∀ m ∈ msgs, m.uuid ≠ u) :
    resIsError (findPendingMessage msgs u) = true := by
  unfold findPendingMessage
  by_cases he : msgs.isEmpty
  · rw [if_pos he]
    rfl
  · rw [if_neg he, findAux_noMatch u msgs h]
    rfl

/-- A successful scan returns a matching entry of the list, and when the
identifier occurs at most once the remaining list holds no match. -/
theorem findAux_ok (u : UUID) (l : List TMessage) (m : TMessage) (l2 : List TMessage)
    (hone : l.countP (fun x => decide (x.uuid = u)) ≤ 1)
    (hfind : findAux u l = (.ok m, l2)) :
    m ∈ l ∧ m.uuid = u ∧ ∀ q ∈ l2, q.uuid ≠ u := by
  induction l generalizing l2 with
  | nil => exact absurd hfind (by simp [findAux])
  | cons a rest ih =>
    by_cases ha : a.uuid = u
    · simp only [findAux, if_pos ha, Prod.mk.injEq, Except.ok.injEq] at hfind
      obtain ⟨rfl, rfl⟩ := hfind
      have hzero : rest.countP (fun x => decide (x.uuid = u)) = 0 := by
        rw [List.countP_cons_of_pos _ _ (by simpa using ha)] at hone
        omega
      refine ⟨by simp, ha, ?_⟩
      intro q hq
      have := List.countP_eq_zero.mp hzero q hq
      simpa using this
    · simp only [findAux, if_neg ha, Prod.mk.injEq] at hfind
      obtain ⟨h1, h2⟩ := hfind
      have hone2 : rest.countP (fun x => decide (x.uuid = u)) ≤ 1 := by
        rwa [List.countP_cons_of_neg _ _ (by simpa using ha)] at hone
      have hfind2 : findAux u rest = (.ok m, (findAux u rest).2) := by
        rw [← h1]
      obtain ⟨hmem, hmu, hrest⟩ := ih _ hone2 hfind2
      refine ⟨List.mem_cons_of_mem _ hmem, hmu, ?_⟩
      intro q hq
      rw [← h2] at hq
      rcases List.mem_cons.mp hq with rfl | hq2
      · exact ha
      · exact hrest q hq2

/-- Counterexample to C4 as stated: with a table holding exactly one entry,
the first lookup consumes it and the second lookup hits the empty-table
branch, returning the `NotProvisionedf("pending messages")` error — which is
not a juju not-found error as the claim requires. -/
theorem findPendingMessage_second_lookup_not_notFound :
    findPendingMessage msgs0 uuidOne = (.ok tmsg0, []) ∧
    (findPendingMessage [] uuidOne).1 = .error (.notProvisionedf "pending messages") ∧
    resNotFoundErr (findPendingMessage [] uuidOne) = false :=
  ⟨rfl, rfl, rfl⟩

/-- Claim C4 (amended): for every identifier occurring at most once in the
pending table, a successful lookup returns the matching entry and removes it,
and a second lookup for the same identifier errors — not-provisioned when the
table is left empty, not-found otherwise — never the stale entry; a lookup
for an identifier that was never recorded also returns an error rather than
crashing. -/
theorem findPendingMessage_consume_once (msgs : List TMessage) (u : UUID)
    (hone : msgs.countP (fun x => decide (x.uuid = u)) ≤ 1) :
    (∀ m l2, findPendingMessage msgs u = (.ok m, l2) →
      m ∈ msgs ∧ m.uuid = u ∧ resIsError (findPendingMessage l2 u) = true) ∧
    ((∀ m ∈ msgs, m.uuid ≠ u) → resIsError (findPendingMessage msgs u) = true) := by
  constructor
  · intro m l2 hfind
    have hne : msgs.isEmpty = false := by
      cases msgs with
      | nil => simp [findPendingMessage] at hfind
      | cons a rest => rfl
    rw [findPendingMessage, if_neg (by simp [hne])] at hfind
    obtain ⟨hmem, hmu, hl2⟩ := findAux_ok u msgs m l2 hone hfind
    exact ⟨hmem, hmu, findPendingMessage_noMatch l2 u hl2⟩
  · exact findPendingMessage_noMatch msgs u

/-- Witness for the amended C4 at a one-entry table. -/
theorem findPendingMessage_consume_once_witness :
    tmsg0 ∈ msgs0 ∧ tmsg0.uuid = uuidOne ∧
    resIsError (findPendingMessage [] uuidOne) = true :=
  (findPendingMessage_consume_once msgs0 uuidOne (by decide)).1 tmsg0 [] rfl

/-- Claim C6: for a reply capsule whose pending message is found, when the
capsule carries an error with non-empty text, `Telegram.Message` sends the
user exactly one system-log error-class message built from the error text and
none of the capsule's responses; when the error is absent, the responses are
sent to that user in order instead. -/
theorem telegramMessage_error_vs_responses (t : TelegramState) (c : Capsule)
    (pm : TMessage) (l : List TMessage)
    (hfind : findPendingMessage t.pendingMessages c.OriginalMessage = (.ok pm, l)) :
    (∀ e, c.Error = some e → 0 < e.message.length →
      (telegramMessage t c).sends = [(pm.user, systemLog e.message errorStatus)]) ∧
    (c.Error = none →
      (telegramMessage t c).sends = c.Responses.map (fun r => (pm.user, r))) := by
  constructor
  · intro e he hlen
    have h1 : telegramMessage t c = sendErrorMessage t c.OriginalMessage e := by
      unfold telegramMessage
      rw [he]
      show (if 0 < e.message.length then sendErrorMessage t c.OriginalMessage e
        else sendTextMessage t c.OriginalMessage c.Responses) = _
      rw [if_pos hlen]
    rw [h1]
    unfold sendErrorMessage
    rw [hfind]
  · intro he
    have h1 : telegramMessage t c = sendTextMessage t c.OriginalMessage c.Responses := by
      unfold telegramMessage
      rw [he]
    rw [h1]
    unfold sendTextMessage
    rw [hfind]

/-- Witness for C6 at a concrete binding state and error capsule. -/
theorem telegramMessage_error_vs_responses_witness :
    (telegramMessage tgState0 capErr).sends =
      [(tmsg0.user, systemLog (GoError.other "boom").message errorStatus)] :=
  (telegramMessage_error_vs_responses tgState0 capErr tmsg0 [] rfl).1
    (.other "boom") rfl (by decide)

/-- Claim C7: `Frontend.message` delivers a returned capsule through the
`Message` operation of the first activated provider whose label equals the
capsule's `frontendProvider`; it returns the not-found error exactly when no
activated provider has that label; and a dispatch-loop iteration continues
regardless of the delivery outcome (only channel closure stops the loop). -/
theorem frontendMessage_dispatch (ps : List FProvider) (c : Capsule) :
    ((∀ p ∈ ps, p.label ≠ c.FrontendProvider) →
      frontendMessage ps c =
        ([], some (.notFoundf ("frontend provider " ++ c.FrontendProvider)))) ∧
    (∀ pre p post, ps = pre ++ p :: post →
      (∀ q ∈ pre, q.label ≠ c.FrontendProvider) →
      p.label = c.FrontendProvider →
      frontendMessage ps c = ([(p.label, c)], p.messageFn c)) ∧
    (frontendStartStep ps (some c)).1 = true := by
  refine ⟨?_, ?_, rfl⟩
  · intro h
    induction ps with
    | nil => rfl
    | cons p rest ih =>
      have hp : ¬(c.FrontendProvider = p.label) := fun hc => h p (by simp) hc.symm
      rw [frontendMessage, if_neg hp]
      exact ih (fun q hq => h q (by simp [hq]))
  · intro pre p post hps hpre hp
    subst hps
    induction pre with
    | nil =>
      rw [List.nil_append, frontendMessage, if_pos hp.symm]
    | cons q pre ih =>
      have hq : ¬(c.FrontendProvider = q.label) :=
        fun hc => hpre q (by simp) hc.symm
      rw [List.cons_append, frontendMessage, if_neg hq]
      exact ih (fun r hr => hpre r (by simp [hr]))

/-- Witness for C7: the capsule is delivered through the second provider, the
first one's label not matching. -/
theorem frontendMessage_dispatch_witness :
    frontendMessage [pOther, pTele] capHello = ([("telegram", capHello)], pTele.messageFn capHello) :=
  (frontendMessage_dispatch [pOther, pTele] capHello).2.1 [pOther] pTele [] rfl
    (fun q hq => by
      rcases List.mem_singleton.mp hq with rfl
      decide)
    rfl

/-- Claim C9: an incoming telegram text message whose sender matches no
configured authorized user on both ID and username simultaneously is dropped
by the handler: nothing is sent to the frontend manager, no pending-message
record is created (the state, hence the pending list, is unchanged), and no
reply is sent to the sender. -/
theorem textMessageHandler_unauthorized (t : TelegramState) (message : TbMessage)
    (freshUuid : UUID)
    (h : ∀ u ∈ t.AuthorizedUsers,
      ¬(u.Name = message.Sender.Username ∧ u.ID = message.Sender.ID)) :
    textMessageHandler t message freshUuid = ⟨t, [], []⟩ := by
  have hv : userIsValid t.AuthorizedUsers message.Sender = false := by
    simp only [userIsValid, List.any_eq_false, Bool.and_eq_true, beq_iff_eq, not_and]
    intro u hu h1 h2
    exact h u hu ⟨h1, h2⟩
  simp [textMessageHandler, hv]

/-- Witness for C9: a sender absent from the allowlist is dropped. -/
theorem textMessageHandler_unauthorized_witness :
    textMessageHandler tgState0 ⟨⟨99, "eve"⟩, "hi"⟩ uuidOne = ⟨tgState0, [], []⟩ :=
  textMessageHandler_unauthorized tgState0 ⟨⟨99, "eve"⟩, "hi"⟩ uuidOne (by decide)

/-- Claim C8: provider loading returns the first error encountered — the
not-found error when a configured label is absent from the registry, the
annotated wrapping of the provider's own failure when an activated entry's
construction fails — and a successful load implies every configured entry
resolved and every activated entry initialized (all-or-nothing: no partial
result is ever returned). -/
theorem loadProvider_first_error (coll : String → Option (PConfig → Except GoError FProvider)) :
    (∀ pre pc rest, (∀ q ∈ pre, passes coll q) →
      ((coll pc.Label = none →
        loadProvider coll (pre ++ pc :: rest) =
          .error (.notFoundf ("provider called `" ++ pc.Label ++ "`"))) ∧
      (∀ initFn e, coll pc.Label = some initFn → pc.IsActivated = true →
        initFn (toPConfig pc) = .error e →
        loadProvider coll (pre ++ pc :: rest) =
          .error (.annotatedErr ("loading provider " ++ pc.Label) e)))) ∧
    (∀ configs ps, loadProvider coll configs = .ok ps → ∀ q ∈ configs, passes coll q) := by
  constructor
  · intro pre pc rest
    induction pre with
    | nil =>
      intro _
      refine ⟨fun hnone => ?_, fun initFn e hsome hact herr => ?_⟩
      · simp [loadProvider, hnone]
      · simp [loadProvider, hsome, hact, herr]
    | cons q pre ih =>
      intro hpre
      have htail : ∀ r ∈ pre, passes coll r := fun r hr => hpre r (by simp [hr])
      obtain ⟨initq, hcq, hokq⟩ := hpre q (by simp)
      have hprop : ∀ e2 : GoError, loadProvider coll (pre ++ pc :: rest) = .error e2 →
          loadProvider coll ((q :: pre) ++ pc :: rest) = .error e2 := by
        intro e2 he2
        cases hact : q.IsActivated with
        | true =>
          obtain ⟨pq, hpq⟩ := hokq hact
          simp [loadProvider, hcq, hact, hpq, he2]
        | false =>
          simp [loadProvider, hcq, hact, he2]
      exact ⟨fun hnone => hprop _ ((ih htail).1 hnone),
        fun initFn e hsome hact2 herr => hprop _ ((ih htail).2 initFn e hsome hact2 herr)⟩
  · intro configs
    induction configs with
    | nil =>
      intro ps _ q hq
      exact absurd hq (List.not_mem_nil q)
    | cons pc rest ih =>
      intro ps h q hq
      rcases hc : coll pc.Label with _ | initFn
      · simp [loadProvider, hc] at h
      · cases hact : pc.IsActivated with
        | true =>
          rcases hinit : initFn (toPConfig pc) with e | p
          · simp [loadProvider, hc, hact, hinit] at h
          · rcases hrest : loadProvider coll rest with e | ps2
            · simp [loadProvider, hc, hact, hinit, hrest] at h
            · rcases List.mem_cons.mp hq with rfl | hq2
              · exact ⟨initFn, hc, fun _ => ⟨p, hinit⟩⟩
              · exact ih ps2 hrest q hq2
        | false =>
          rcases List.mem_cons.mp hq with rfl | hq2
          · exact ⟨initFn, hc, fun ha => by rw [hact] at ha; exact absurd ha (by simp)⟩
          · have h2 : loadProvider coll rest = .ok ps := by
              simpa [loadProvider, hc, hact] using h
            exact ih ps h2 q hq2

/-- Witness for C8: a configuration naming an unknown label fails to load
with the not-found error. -/
theorem loadProvider_first_error_witness :
    loadProvider coll0 [cfgUnknown] =
      .error (.notFoundf ("provider called `" ++ cfgUnknown.Label ++ "`")) :=
  ((loadProvider_first_error coll0).1 [] cfgUnknown [] (by simp)).1
    (by
      show (if "slack" = "telegram" then _ else none) = none
      rw [if_neg (by decide)])

/-- The scan-and-split loop never produces an empty list of pieces. -/
theorem splitNlChars_ne_nil (l : List Char) : splitNlChars l ≠ [] := by
  induction l with
  | nil => simp [splitNlChars]
  | cons c rest ih =>
    rw [splitNlChars]
    by_cases hc : c = '\n'
    · rw [if_pos hc]
      simp
    · rw [if_neg hc]
      rcases h : splitNlChars rest with _ | ⟨s, ss⟩
      · simp
      · simp

/-- Splitting on newlines yields one more piece than the number of newline
characters. -/
theorem splitNlChars_length (l : List Char) :
    (splitNlChars l).length = l.count '\n' + 1 := by
  induction l with
  | nil => rfl
  | cons c rest ih =>
    rw [splitNlChars]
    by_cases hc : c = '\n'
    · rw [if_pos hc, hc]
      simp [List.count_cons, ih]
    · rcases h : splitNlChars rest with _ | ⟨s, ss⟩
      · exact absurd h (splitNlChars_ne_nil rest)
      · rw [if_neg hc]
        show ((c :: s) :: ss).length = List.count '\n' (c :: rest) + 1
        have h2 : (s :: ss).length = rest.count '\n' + 1 := h ▸ ih
        have h3 : List.count '\n' (c :: rest) = List.count '\n' rest := by
          simp [List.count_cons, Ne.symm hc]
        rw [h3]
        simp only [List.length_cons] at h2 ⊢
        omega

/-- The flattening loop of `convertResponse` is an in-order concatenation. -/
theorem foldl_concatOutputs (f : WGeneric → List Output) (l : List WGeneric)
    (init : List Output) :
    l.foldl (fun acc g => acc ++ f g) init = init ++ concatOutputs f l := by
  induction l generalizing init with
  | nil => simp [concatOutputs]
  | cons g rest ih => simp [concatOutputs, List.foldl_cons, ih, List.append_assoc]

/-- Claim C10: for every decoded watson response, `convertResponse` produces
the outputs obtained by concatenating, in order over the generic items, each
item's text split on newline characters, every piece carrying its item's
response type; and a text with k newlines splits into k+1 pieces. -/
theorem convertResponse_splits_generics (w : ResponseWatson) :
    (convertResponse w).Outputs =
      concatOutputs
        (fun g => (goSplitNl g.Text).map (fun r => { ResponseType := g.ResponseType, Text := r }))
        w.Result.Output.Generics ∧
    ∀ g : WGeneric, (goSplitNl g.Text).length = g.Text.data.count '\n' + 1 := by
  constructor
  · show List.foldl _ [] _ = _
    rw [foldl_concatOutputs]
    simp
  · intro g
    simp [goSplitNl, splitNlChars_length]

/-- Witness for C5 at a concrete capsule and error string. -/
theorem capsuleIsValid_uuid_branch_unreachable_witness :
    V1.capsuleIsValid imgCapsule ≠ some (GoError.notValidf "x") :=
  (capsuleIsValid_uuid_branch_unreachable imgCapsule).2 "x"

/-- A decoded watson response with one two-line generic. -/
def wResp0 : ResponseWatson :=
  { StatusCode := 200
    Result := { Output := { Generics := [⟨"text", "a\nb"⟩], Intents := [] } } }

/-- Witness for C10 at a concrete decoded response. -/
theorem convertResponse_splits_generics_witness :
    (convertResponse wResp0).Outputs =
      concatOutputs
        (fun g => (goSplitNl g.Text).map (fun r => { ResponseType := g.ResponseType, Text := r }))
        wResp0.Result.Output.Generics :=
  (convertResponse_splits_generics wResp0).1
